import Mathlib

/-!
Verification of the agentctl coordination core (pkg/coordination and the
retry controller in pkg/container) against its specification.

The Go code persists three structures per repository namespace:
claims.json (a map from file path to Claim), messages.jsonl (an append-only
event log) and state.json (a map from agent name to AgentState).  We embed
the namespace as a `CoordState` record and each Go operation as a pure
function that threads the state explicitly.  Fallible I/O steps
(saving a table, publishing a message) are modelled by boolean fault flags:
`true` means the write succeeded, `false` that it failed; timestamps
(`time.Now()`) become explicit `Nat` arguments.
-/

namespace Agentctl

/-- Association-list lookup, the embedding of a Go map read `m[k]`. -/
def mlookup {α : Type} : List (String × α) → String → Option α
  | [], _ => none
  | (k, v) :: rest, key => if k = key then some v else mlookup rest key

/-- Association-list insert/replace, the embedding of a Go map write `m[k] = v`. -/
def minsert {α : Type} : List (String × α) → String → α → List (String × α)
  | [], key, v => [(key, v)]
  | (k, w) :: rest, key, v =>
      if k = key then (key, v) :: rest else (k, w) :: minsert rest key v

/-- Association-list delete, the embedding of Go `delete(m, k)`. -/
def merase {α : Type} : List (String × α) → String → List (String × α)
  | [], _ => []
  | (k, w) :: rest, key =>
      if k = key then merase rest key else (k, w) :: merase rest key

/-- claims.go: `Claim` represents a file claim by an agent. -/
structure Claim where
  agent : String
  file : String
  claimedAt : Nat
deriving Repr, DecidableEq

/-- bus.go: `MessageType` represents the type of coordination message. -/
inductive MessageType where
  | claim
  | release
  | committed
  | pushed
  | prCreated
  | merged
  | rebaseNeeded
deriving Repr, DecidableEq

/-- bus.go: `Message` represents a single coordination message on the bus.
`Data map[string]string` becomes an association list. -/
structure Message where
  type : MessageType
  agent : String
  timestamp : Nat
  data : List (String × String)
deriving Repr, DecidableEq

/-- state.go: `AgentState` represents the coordination state of a single agent. -/
structure AgentState where
  name : String
  branch : String
  status : String
  lastUpdate : Nat
deriving Repr, DecidableEq

/-- The per-repository coordination namespace: claims.json, messages.jsonl,
state.json (its `agents` map and its `last_updated` marker). -/
structure CoordState where
  claims : List (String × Claim)
  messages : List Message
  agents : List (String × AgentState)
  lastUpdated : Nat
deriving Repr, DecidableEq

/-- Errors surfaced by the coordination operations.  The Go code returns
formatted error strings; we retain their informative parts structurally. -/
inductive CoordError where
  /-- claims.go: "file %s already claimed by agent %s (since %s)". -/
  | alreadyClaimed (file holder : String) (since : Nat)
  /-- claims.go: "file %s is claimed by agent %s, not %s". -/
  | notOwner (file holder caller : String)
  /-- a failed `saveClaims` write. -/
  | saveFailed
  /-- a failed `Publish` append. -/
  | publishFailed
deriving Repr, DecidableEq

/-- bus.go: `Publish` appends a message to the bus, overwriting the
caller-supplied timestamp with the current time. -/
def Publish (st : CoordState) (now : Nat) (msg : Message) : CoordState :=
  { st with messages := st.messages ++ [{ msg with timestamp := now }] }

/-- claims.go: `ClaimFile` attempts to claim a file for the given agent.
`saveOk` models the `saveClaims` write succeeding, `publishOk` the
`Publish` append succeeding. -/
def ClaimFile (st : CoordState) (now : Nat) (agentName filePath : String)
    (saveOk publishOk : Bool) : Except CoordError Unit × CoordState :=
  match mlookup st.claims filePath with
  | some existing =>
      if existing.agent ≠ agentName then
        (.error (.alreadyClaimed filePath existing.agent existing.claimedAt), st)
      else
        -- Already claimed by same agent, idempotent
        (.ok (), st)
  | none =>
      let claims' := minsert st.claims filePath ⟨agentName, filePath, now⟩
      if saveOk then
        let st' := { st with claims := claims' }
        if publishOk then
          (.ok (), Publish st' now ⟨.claim, agentName, 0, [("file", filePath)]⟩)
        else
          (.error .publishFailed, st')
      else
        (.error .saveFailed, st)

/-- claims.go: `ReleaseFile` releases a file claim for the given agent. -/
def ReleaseFile (st : CoordState) (now : Nat) (agentName filePath : String)
    (saveOk publishOk : Bool) : Except CoordError Unit × CoordState :=
  match mlookup st.claims filePath with
  | none =>
      -- Not claimed, nothing to do
      (.ok (), st)
  | some existing =>
      if existing.agent ≠ agentName then
        (.error (.notOwner filePath existing.agent agentName), st)
      else
        let claims' := merase st.claims filePath
        if saveOk then
          let st' := { st with claims := claims' }
          if publishOk then
            (.ok (), Publish st' now ⟨.release, agentName, 0, [("file", filePath)]⟩)
          else
            (.error .publishFailed, st')
        else
          (.error .saveFailed, st)

/-- claims.go: `ReleaseAllForAgent` releases all claims held by a given agent.
It publishes no events. -/
def ReleaseAllForAgent (st : CoordState) (agentName : String)
    (saveOk : Bool) : Except CoordError Unit × CoordState :=
  let claims' := st.claims.filter (fun e => !(e.2.agent == agentName))
  if saveOk then
    (.ok (), { st with claims := claims' })
  else
    (.error .saveFailed, st)

/-- claims.go: `IsFileClaimed` returns the claiming agent (empty if unclaimed)
and whether the file is claimed. -/
def IsFileClaimed (st : CoordState) (filePath : String) : String × Bool :=
  match mlookup st.claims filePath with
  | some c => (c.agent, true)
  | none => ("", false)

/-- bus.go: `ReadMessages` reads all messages from the bus, in append order. -/
def ReadMessages (st : CoordState) : List Message :=
  st.messages

/-- bus.go: `ReadMessagesSince` keeps messages with timestamp strictly after
`since` (`msg.Timestamp.After(since)`). -/
def ReadMessagesSince (msgs : List Message) (since : Nat) : List Message :=
  msgs.filter (fun m => since < m.timestamp)

/-- bus.go: `isRelevantToAgent` checks if a message is relevant to a specific
agent.  rebase_needed without a target is broadcast; pushed/merged are
relevant to all agents. -/
def isRelevantToAgent (msg : Message) (agentName : String) : Bool :=
  if msg.type == .rebaseNeeded then
    match mlookup msg.data "target" with
    | some target => target == agentName
    | none => true
  else
    match msg.type with
    | .pushed => true
    | .merged => true
    | _ => false

/-- bus.go: `ReadMessagesForAgent` keeps messages FROM this agent and
messages that affect this agent. -/
def ReadMessagesForAgent (msgs : List Message) (agentName : String) : List Message :=
  msgs.filter (fun m => m.agent == agentName || isRelevantToAgent m agentName)

/-- bus.go: `HasRebaseNeeded` checks if any rebase_needed message exists for
the given agent since the specified time: targeted at this agent, or a
broadcast rebase_needed with no target. -/
def HasRebaseNeeded (msgs : List Message) (agentName : String) (since : Nat) : Bool :=
  (ReadMessagesSince msgs since).any fun m =>
    m.type == .rebaseNeeded &&
      (match mlookup m.data "target" with
       | some target => target == agentName
       | none => true)

/-- state.go: `UpdateAgentState` upserts an agent's state and touches the
namespace-wide `last_updated` marker. -/
def UpdateAgentState (st : CoordState) (now : Nat)
    (agentName status branch : String) : CoordState :=
  { st with
    agents := minsert st.agents agentName ⟨agentName, branch, status, now⟩
    lastUpdated := now }

/-! ## Retry controller (pkg/container, `RunUntilDone`)

The controller's external collaborators — the status probe (`getStatus`,
which shells into the container) and the bus contents visible at each
attempt (other processes append to messages.jsonl concurrently; the
controller itself only reads it) — are modelled as oracle functions indexed
by the attempt number.  The prompt handed to the executor (`runClaude`) at
each attempt, together with the value of the mutable `task` variable at
that point, is recorded as an observable trace. -/

/-- container: `AgentStatus` as returned by the status probe `getStatus`. -/
structure AgentStatus where
  testStatus : String
  hasUncommitted : Bool
deriving Repr, DecidableEq

/-- container: `TaskResult` returned by `RunUntilDone`. -/
structure TaskResult where
  completed : Bool
  testsPassed : Bool
  hasChanges : Bool
  error : String
  attempts : Nat
deriving Repr, DecidableEq

/-- container: the completion record persisted by `SaveHistory` on success. -/
structure AgentHistory where
  name : String
  repo : String
  created : Nat
  completedAt : Nat
  result : String
  attempts : Nat
deriving Repr, DecidableEq

/-- The retry loop's external environment: per-attempt bus contents, the
status probe after the executor ran, the status probe used while building
the recap prompt (attempts ≥ 2), and the wall clock. -/
structure LoopEnv where
  busAt : Nat → List Message
  statusAt : Nat → AgentStatus
  preStatusAt : Nat → AgentStatus
  timeAt : Nat → Nat

/-- One attempt's observable record: the value of the mutable `task`
variable after the rebase check, and the prompt passed to the executor. -/
structure AttemptLog where
  task : String
  prompt : String
deriving Repr, DecidableEq

/-- The controller's outcome: the `TaskResult`, the final namespace state,
the per-attempt trace, the persisted completion record (if any) and the
returned error (if any). -/
structure RunTrace where
  result : TaskResult
  finalState : CoordState
  trace : List AttemptLog
  history : Option AgentHistory
  err : Option String

/-- The corrective instruction appended to the task when a rebase signal is
detected. -/
def rebaseInstr : String :=
  "\n\nIMPORTANT: Another agent has pushed changes. Run 'git pull --rebase' before continuing."

/-- The recap prompt built for attempts ≥ 2 (`fmt.Sprintf` in `RunUntilDone`). -/
def recapPrompt (status : AgentStatus) (task : String) : String :=
  "Continue working. Previous status:\n- Tests: " ++ status.testStatus ++
    "\n- Uncommitted changes: " ++ toString status.hasUncommitted ++
    "\n\nOriginal task: " ++ task ++
    "\n\nKeep going until tests pass and all changes are committed."

/-- The body of `RunUntilDone`'s for-loop, recursing on the number of
remaining attempts.  `attempt` is the current attempt number; the fuel-zero
case is the fall-through after the loop (the blocked path). -/
def runLoop (repoURL name : String) (env : LoopEnv) (loopStart maxAttempts : Nat) :
    Nat → Nat → String → CoordState → List AttemptLog → TaskResult → RunTrace
  | 0, _, _, st, logs, res =>
      -- Update coordination state on failure
      let st := if repoURL ≠ "" then
          UpdateAgentState st (env.timeAt (maxAttempts + 1)) name "blocked" ""
        else st
      { result := { res with error := "max attempts reached" }
        finalState := st
        trace := logs
        history := none
        err := some ("task not completed after " ++ toString maxAttempts ++ " attempts") }
  | fuel + 1, attempt, task, st, logs, res =>
      let res := { res with attempts := attempt }
      -- Update coordination state
      let st := if repoURL ≠ "" then
          UpdateAgentState st (env.timeAt attempt) name "working" ""
        else st
      -- Check for rebase_needed signals from other agents
      let task := if repoURL ≠ "" then
          if HasRebaseNeeded (env.busAt attempt) name loopStart then
            task ++ rebaseInstr
          else task
        else task
      -- Build the prompt - include context from previous attempts
      let prompt := if attempt > 1 then recapPrompt (env.preStatusAt attempt) task else task
      let logs := logs ++ [⟨task, prompt⟩]
      -- Check if done
      let status := env.statusAt attempt
      let res := { res with
        testsPassed := status.testStatus == "pass"
        hasChanges := status.hasUncommitted }
      if status.testStatus == "pass" && !status.hasUncommitted then
        let res := { res with completed := true }
        -- Update coordination state to done and release all claims
        let st := if repoURL ≠ "" then
            let st := UpdateAgentState st (env.timeAt attempt) name "done" ""
            (ReleaseAllForAgent st name true).2
          else st
        { result := res
          finalState := st
          trace := logs
          history := some ⟨name, repoURL, loopStart, env.timeAt attempt, "success", attempt⟩
          err := none }
      else
        runLoop repoURL name env loopStart maxAttempts fuel (attempt + 1) task st logs res

/-- container: `RunUntilDone` keeps the agent working until the task is
complete.  `repoURL` is the repository associated with the agent (empty when
coordination is disabled); `st` is the shared namespace state on entry. -/
def RunUntilDone (st : CoordState) (repoURL name task : String)
    (maxAttempts : Nat) (env : LoopEnv) (loopStart : Nat) : RunTrace :=
  let maxA := if maxAttempts = 0 then 10 else maxAttempts
  runLoop repoURL name env loopStart maxA maxA 1 task st []
    ⟨false, false, false, "", 0⟩

/-! ## Association-map lemmas -/

theorem mlookup_minsert_self {α : Type} (l : List (String × α)) (k : String) (v : α) :
    mlookup (minsert l k v) k = some v := by
  induction l with
  | nil => simp [minsert, mlookup]
  | cons e rest ih =>
      obtain ⟨k', v'⟩ := e
      by_cases h : k' = k
      · simp [minsert, mlookup, h]
      · simp [minsert, mlookup, h, ih]

theorem minsert_of_mlookup_none {α : Type} {l : List (String × α)} {k : String}
    (v : α) (h : mlookup l k = none) : minsert l k v = l ++ [(k, v)] := by
  induction l with
  | nil => simp [minsert]
  | cons e rest ih =>
      obtain ⟨k', v'⟩ := e
      by_cases hk : k' = k
      · rw [mlookup, if_pos hk] at h
        exact absurd h (by simp)
      · rw [mlookup, if_neg hk] at h
        simp [minsert, hk, ih h]

theorem filter_key_of_mlookup_none {α : Type} {l : List (String × α)} {k : String}
    (h : mlookup l k = none) : l.filter (fun e => e.1 == k) = [] := by
  induction l with
  | nil => rfl
  | cons e rest ih =>
      obtain ⟨k', v'⟩ := e
      by_cases hk : k' = k
      · rw [mlookup, if_pos hk] at h
        exact absurd h (by simp)
      · rw [mlookup, if_neg hk] at h
        rw [List.filter_cons]
        simpa [hk] using ih h

theorem merase_sublist {α : Type} (l : List (String × α)) (k : String) :
    (merase l k).Sublist l := by
  induction l with
  | nil => simp [merase]
  | cons e rest ih =>
      obtain ⟨k', v'⟩ := e
      by_cases hk : k' = k
      · simpa [merase, hk] using ih.cons (k', v')
      · simpa [merase, hk] using ih.cons₂ (k', v')

/-! ## C2: rebase-signal detection versus the readForAgent relevance rule

`HasRebaseNeeded` inspects only the `target` entry of a rebase_needed
message; authorship plays no role.  A rebase_needed message authored by the
agent itself but targeted at someone else qualifies under the
`ReadMessagesForAgent` relevance test (`m.agent == x || isRelevantToAgent`)
yet is not reported by `HasRebaseNeeded`. -/

/-- C2 (counterexample): the claimed equivalence — `hasRebaseNeeded(x, t)`
true iff some event after `t` qualifies under the readForAgent rule
(authored by x, or untargeted, or targeted at x) — fails on a rebase_needed
event authored by x but targeted at a different agent y. -/
theorem hasRebaseNeeded_readForAgent_rule_cex :
    ¬ (HasRebaseNeeded [⟨.rebaseNeeded, "x", 5, [("target", "y")]⟩] "x" 0 = true ↔
        ∃ m ∈ ([⟨.rebaseNeeded, "x", 5, [("target", "y")]⟩] : List Message),
          m.type = .rebaseNeeded ∧ 0 < m.timestamp ∧
            (m.agent == "x" || isRelevantToAgent m "x") = true) := by
  decide

/-- C2 (amended): `HasRebaseNeeded msgs x t` is true iff the log contains a
rebase_needed event with timestamp strictly after `t` that is untargeted or
targeted at x; the event's author is irrelevant. -/
theorem hasRebaseNeeded_iff (msgs : List Message) (x : String) (t : Nat) :
    HasRebaseNeeded msgs x t = true ↔
      ∃ m ∈ msgs, m.type = .rebaseNeeded ∧ t < m.timestamp ∧
        (mlookup m.data "target" = none ∨ mlookup m.data "target" = some x) := by
  unfold HasRebaseNeeded ReadMessagesSince
  rw [List.any_eq_true]
  constructor
  · rintro ⟨m, hm, hp⟩
    rw [List.mem_filter] at hm
    rw [Bool.and_eq_true, beq_iff_eq] at hp
    refine ⟨m, hm.1, hp.1, by simpa using hm.2, ?_⟩
    cases hd : mlookup m.data "target" with
    | none => exact Or.inl rfl
    | some target =>
        rw [hd] at hp
        exact Or.inr (by rw [beq_iff_eq] at hp; rw [hp.2])
  · rintro ⟨m, hm, hty, ht, htarget⟩
    refine ⟨m, List.mem_filter.mpr ⟨hm, by simpa using ht⟩, ?_⟩
    rw [Bool.and_eq_true, beq_iff_eq]
    refine ⟨hty, ?_⟩
    rcases htarget with hd | hd <;> simp [hd]

theorem mlookup_merase_self {α : Type} (l : List (String × α)) (k : String) :
    mlookup (merase l k) k = none := by
  induction l with
  | nil => simp [merase, mlookup]
  | cons e rest ih =>
      obtain ⟨k', v'⟩ := e
      by_cases hk : k' = k
      · simp [merase, hk, ih]
      · simp [merase, mlookup, hk, ih]

/-! ## C5: readForAgent relevance filtering -/

/-- Predicate transcribed from the spec's words for C5: an event is returned
for agent x iff it is authored by x, or is a pushed/merged event (any
author), or is a rebase_needed event that is untargeted or targeted at x. -/
def specRelevantForAgent (x : String) (m : Message) : Bool :=
  m.agent == x || m.type == .pushed || m.type == .merged ||
    (m.type == .rebaseNeeded &&
      (match mlookup m.data "target" with
       | none => true
       | some target => target == x))

/-- C5: `ReadMessagesForAgent` returns exactly the events satisfying the
spec's relevance rule, in append order (it is the order-preserving filter of
the log by that rule), and membership is characterized by: authored by x, or
pushed/merged, or rebase_needed untargeted or targeted at x. -/
theorem readMessagesForAgent_spec (msgs : List Message) (x : String) :
    ReadMessagesForAgent msgs x = msgs.filter (specRelevantForAgent x) ∧
    ∀ m ∈ msgs, (m ∈ ReadMessagesForAgent msgs x ↔
      (m.agent = x ∨ m.type = .pushed ∨ m.type = .merged ∨
        (m.type = .rebaseNeeded ∧
          (mlookup m.data "target" = none ∨ mlookup m.data "target" = some x)))) := by
  have hpt : ∀ m : Message,
      (m.agent == x || isRelevantToAgent m x) = specRelevantForAgent x m := by
    intro m
    rw [Bool.eq_iff_iff]
    unfold isRelevantToAgent specRelevantForAgent
    cases hT : m.type <;> cases hD : mlookup m.data "target" <;> simp [hD]
  have hfe : (fun m : Message => m.agent == x || isRelevantToAgent m x) =
      specRelevantForAgent x := funext hpt
  refine ⟨by rw [ReadMessagesForAgent, hfe], ?_⟩
  intro m hm
  rw [ReadMessagesForAgent, List.mem_filter]
  simp only [hm, true_and]
  rw [hpt m]
  unfold specRelevantForAgent
  cases hT : m.type <;> cases hD : mlookup m.data "target" <;> simp [hD]

/-- Concrete log used by the C5 witness: one pushed event by another agent
and one rebase_needed event targeted at a third agent. -/
def msgsW : List Message :=
  [⟨.pushed, "z", 3, []⟩, ⟨.rebaseNeeded, "z", 4, [("target", "y")]⟩]

theorem readMessagesForAgent_spec_witness :
    ReadMessagesForAgent msgsW "x" = msgsW.filter (specRelevantForAgent "x") ∧
    ((⟨.pushed, "z", 3, []⟩ : Message) ∈ ReadMessagesForAgent msgsW "x" ↔
      ((⟨.pushed, "z", 3, []⟩ : Message).agent = "x" ∨
        (⟨.pushed, "z", 3, []⟩ : Message).type = .pushed ∨
        (⟨.pushed, "z", 3, []⟩ : Message).type = .merged ∨
        ((⟨.pushed, "z", 3, []⟩ : Message).type = .rebaseNeeded ∧
          (mlookup (⟨.pushed, "z", 3, []⟩ : Message).data "target" = none ∨
            mlookup (⟨.pushed, "z", 3, []⟩ : Message).data "target" = some "x")))) :=
  ⟨(readMessagesForAgent_spec msgsW "x").1,
    (readMessagesForAgent_spec msgsW "x").2 ⟨.pushed, "z", 3, []⟩ (by decide)⟩

/-! ## C4: claim conflict -/

/-- C4: claiming a path currently held by a different agent fails with an
error naming the holder and the original claim time, and leaves the
namespace (claims table and event log) completely unchanged, whatever the
I/O fault flags. -/
theorem claimFile_conflict (st : CoordState) (now : Nat) (a b p : String)
    (c : Claim) (saveOk publishOk : Bool)
    (hc : mlookup st.claims p = some c) (ha : c.agent = a) (hb : b ≠ a) :
    ClaimFile st now b p saveOk publishOk =
      (.error (.alreadyClaimed p a c.claimedAt), st) := by
  have hab : a ≠ b := fun h => hb h.symm
  unfold ClaimFile
  rw [hc]
  simp [ha, hab]

/-- Concrete state used by several witnesses: agent "a" holds file "f"
(claimed at time 1). -/
def stHeld : CoordState := ⟨[("f", ⟨"a", "f", 1⟩)], [], [], 0⟩

theorem claimFile_conflict_witness :
    ClaimFile stHeld 7 "b" "f" true true =
      (.error (.alreadyClaimed "f" "a" 1), stHeld) :=
  claimFile_conflict stHeld 7 "a" "b" "f" ⟨"a", "f", 1⟩ true true rfl rfl
    (by decide)

/-! ## C6: claim idempotence for the holder -/

/-- C6: after a successful fresh claim by agent a at time t1, a second
claim by a succeeds, changes nothing (no write, no event), and the recorded
holder and claimedAt are still those of the first claim. -/
theorem claimFile_idempotent (st : CoordState) (t1 t2 : Nat) (a p : String)
    (h : mlookup st.claims p = none) :
    (ClaimFile st t1 a p true true).1 = .ok () ∧
    ClaimFile (ClaimFile st t1 a p true true).2 t2 a p true true =
      (.ok (), (ClaimFile st t1 a p true true).2) ∧
    mlookup (ClaimFile st t1 a p true true).2.claims p = some ⟨a, p, t1⟩ := by
  have h2 : (ClaimFile st t1 a p true true).2.claims =
      minsert st.claims p ⟨a, p, t1⟩ := by
    unfold ClaimFile
    rw [h]
    simp [Publish]
  have hl : mlookup (ClaimFile st t1 a p true true).2.claims p =
      some ⟨a, p, t1⟩ := by
    rw [h2]
    exact mlookup_minsert_self _ _ _
  have key : ∀ st' : CoordState, mlookup st'.claims p = some ⟨a, p, t1⟩ →
      ClaimFile st' t2 a p true true = (.ok (), st') := by
    intro st' h'
    unfold ClaimFile
    rw [h']
    simp
  refine ⟨?_, key _ hl, hl⟩
  unfold ClaimFile
  rw [h]
  simp

/-- Concrete empty namespace used by witnesses. -/
def stEmpty : CoordState := ⟨[], [], [], 0⟩

theorem claimFile_idempotent_witness :
    (ClaimFile stEmpty 1 "a" "f" true true).1 = .ok () ∧
    ClaimFile (ClaimFile stEmpty 1 "a" "f" true true).2 2 "a" "f" true true =
      (.ok (), (ClaimFile stEmpty 1 "a" "f" true true).2) ∧
    mlookup (ClaimFile stEmpty 1 "a" "f" true true).2.claims "f" =
      some ⟨"a", "f", 1⟩ :=
  claimFile_idempotent stEmpty 1 2 "a" "f" rfl

/-! ## C9: claim mutation is not atomic with its error report -/

/-- C9: when the claims-table write succeeds but the event append fails,
`ClaimFile` on an unclaimed path returns an error even though the claims
table has durably recorded the caller as holder (and no event was
appended): an error return does not imply the state is unchanged. -/
theorem claimFile_publish_failure_mutates (st : CoordState) (now : Nat)
    (a p : String) (h : mlookup st.claims p = none) :
    ClaimFile st now a p true false =
      (.error .publishFailed,
        { st with claims := minsert st.claims p ⟨a, p, now⟩ }) ∧
    mlookup (ClaimFile st now a p true false).2.claims p = some ⟨a, p, now⟩ ∧
    (ClaimFile st now a p true false).2.messages = st.messages := by
  have he : ClaimFile st now a p true false =
      (.error .publishFailed,
        { st with claims := minsert st.claims p ⟨a, p, now⟩ }) := by
    unfold ClaimFile
    rw [h]
    simp
  exact ⟨he, by rw [he]; exact mlookup_minsert_self _ _ _, by rw [he]⟩

theorem claimFile_publish_failure_mutates_witness :
    ClaimFile stEmpty 3 "a" "f" true false =
      (.error .publishFailed,
        { stEmpty with claims := minsert stEmpty.claims "f" ⟨"a", "f", 3⟩ }) ∧
    mlookup (ClaimFile stEmpty 3 "a" "f" true false).2.claims "f" =
      some ⟨"a", "f", 3⟩ ∧
    (ClaimFile stEmpty 3 "a" "f" true false).2.messages = stEmpty.messages :=
  claimFile_publish_failure_mutates stEmpty 3 "a" "f" rfl

/-! ## C3: the three release cases -/

/-- C3: `ReleaseFile` obeys exactly three cases: unclaimed path — no-op
success with no mutation and no event; held by the caller — the claim is
removed (the path becomes unclaimed) and a release event is appended; held
by another agent — a Forbidden-style error naming the holder, with no
mutation and no event, whatever the I/O fault flags. -/
theorem releaseFile_cases (st : CoordState) (now : Nat) (a p : String)
    (saveOk publishOk : Bool) :
    (mlookup st.claims p = none →
      ReleaseFile st now a p saveOk publishOk = (.ok (), st)) ∧
    (∀ c, mlookup st.claims p = some c → c.agent = a →
      ReleaseFile st now a p true true =
        (.ok (), { st with
          claims := merase st.claims p
          messages := st.messages ++ [⟨.release, a, now, [("file", p)]⟩] }) ∧
      mlookup (merase st.claims p) p = none) ∧
    (∀ c, mlookup st.claims p = some c → c.agent ≠ a →
      ReleaseFile st now a p saveOk publishOk =
        (.error (.notOwner p c.agent a), st)) := by
  refine ⟨?_, ?_, ?_⟩
  · intro h
    unfold ReleaseFile
    rw [h]
  · intro c hc hagent
    refine ⟨?_, mlookup_merase_self _ _⟩
    unfold ReleaseFile
    rw [hc]
    simp [hagent, Publish]
  · intro c hc hne
    unfold ReleaseFile
    rw [hc]
    simp [hne]

theorem releaseFile_cases_witness :
    ReleaseFile stHeld 9 "a" "g" true true = (.ok (), stHeld) ∧
    (ReleaseFile stHeld 9 "a" "f" true true =
      (.ok (), { stHeld with
        claims := merase stHeld.claims "f"
        messages := stHeld.messages ++ [⟨.release, "a", 9, [("file", "f")]⟩] }) ∧
      mlookup (merase stHeld.claims "f") "f" = none) ∧
    ReleaseFile stHeld 9 "b" "f" true true =
      (.error (.notOwner "f" "a" "b"), stHeld) :=
  ⟨(releaseFile_cases stHeld 9 "a" "g" true true).1 rfl,
   (releaseFile_cases stHeld 9 "a" "f" true true).2.1 ⟨"a", "f", 1⟩ rfl rfl,
   (releaseFile_cases stHeld 9 "b" "f" true true).2.2 ⟨"a", "f", 1⟩ rfl
     (by decide)⟩

/-! ## C1: mutual exclusion of claims -/

/-- The agents recorded as holding path `p` in a claims table. -/
def holdersOf (l : List (String × Claim)) (p : String) : List String :=
  (l.filter (fun e => e.1 == p)).map (fun e => e.2.agent)

/-- Each path has at most one holding agent. -/
def AtMostOneHolder (l : List (String × Claim)) : Prop :=
  ∀ p, (holdersOf l p).length ≤ 1

/-- One sequential coordination call, with its time and I/O fault flags. -/
inductive CoordOp where
  | claimOp (agent path : String) (now : Nat) (saveOk publishOk : Bool)
  | releaseOp (agent path : String) (now : Nat) (saveOk publishOk : Bool)
  | releaseAllOp (agent : String) (saveOk : Bool)
deriving Repr, DecidableEq

/-- Apply one coordination call to the namespace, keeping the state it
leaves behind regardless of the call's success. -/
def applyOp (st : CoordState) : CoordOp → CoordState
  | .claimOp a p t s pub => (ClaimFile st t a p s pub).2
  | .releaseOp a p t s pub => (ReleaseFile st t a p s pub).2
  | .releaseAllOp a s => (ReleaseAllForAgent st a s).2

/-- Run a sequence of coordination calls from a starting state. -/
def runOps (st : CoordState) : List CoordOp → CoordState
  | [] => st
  | op :: rest => runOps (applyOp st op) rest

theorem atMostOne_of_sublist {l' l : List (String × Claim)}
    (h : l'.Sublist l) (H : AtMostOneHolder l) : AtMostOneHolder l' := by
  intro p
  exact le_trans (((h.filter _).map _).length_le) (H p)

theorem atMostOne_append_fresh {l : List (String × Claim)} {p : String}
    (c : Claim) (H : AtMostOneHolder l) (h : mlookup l p = none) :
    AtMostOneHolder (l ++ [(p, c)]) := by
  intro q
  unfold holdersOf
  rw [List.filter_append]
  by_cases hq : q = p
  · subst hq
    rw [filter_key_of_mlookup_none h]
    simp
  · have hpq : (p == q) = false := by
      rw [beq_eq_false_iff_ne]
      exact Ne.symm hq
    have h1 : ([(p, c)] : List (String × Claim)).filter (fun e => e.1 == q) = [] := by
      simp [List.filter, hpq]
    rw [h1]
    simpa [holdersOf] using H q

theorem claimFile_claims_cases (st : CoordState) (t : Nat) (a p : String)
    (s pub : Bool) :
    (ClaimFile st t a p s pub).2.claims = st.claims ∨
    (mlookup st.claims p = none ∧
      (ClaimFile st t a p s pub).2.claims = st.claims ++ [(p, ⟨a, p, t⟩)]) := by
  unfold ClaimFile
  cases hc : mlookup st.claims p with
  | some c =>
      left
      by_cases h : c.agent ≠ a <;> simp [h]
  | none =>
      cases s with
      | false => left; simp
      | true =>
          right
          refine ⟨rfl, ?_⟩
          cases pub <;> simp [Publish, minsert_of_mlookup_none _ hc]

theorem releaseFile_claims_sublist (st : CoordState) (t : Nat) (a p : String)
    (s pub : Bool) :
    ((ReleaseFile st t a p s pub).2.claims).Sublist st.claims := by
  unfold ReleaseFile
  cases hc : mlookup st.claims p with
  | none => simp
  | some c =>
      by_cases h : c.agent ≠ a
      · simp [h]
      · cases s with
        | false => simp [h]
        | true => cases pub <;> simpa [h, Publish] using merase_sublist st.claims p

theorem releaseAll_claims_sublist (st : CoordState) (a : String) (s : Bool) :
    ((ReleaseAllForAgent st a s).2.claims).Sublist st.claims := by
  unfold ReleaseAllForAgent
  cases s <;> simp [List.filter_sublist]

theorem atMostOne_applyOp (st : CoordState) (op : CoordOp)
    (H : AtMostOneHolder st.claims) : AtMostOneHolder (applyOp st op).claims := by
  cases op with
  | claimOp a p t s pub =>
      rcases claimFile_claims_cases st t a p s pub with h | ⟨hnone, h⟩
      · rw [applyOp, h]; exact H
      · rw [applyOp, h]; exact atMostOne_append_fresh _ H hnone
  | releaseOp a p t s pub =>
      exact atMostOne_of_sublist (releaseFile_claims_sublist st t a p s pub) H
  | releaseAllOp a s =>
      exact atMostOne_of_sublist (releaseAll_claims_sublist st a s) H

/-- C1: mutual exclusion of claims.  Starting from any namespace whose
claims table has at most one holder per path, any sequence of
claim/release/releaseAll calls (any agents, any times, any I/O fault
outcomes) preserves that invariant — since the sequence is arbitrary, the
table has at most one holder per path at every point between operations —
and a successful claim of an unclaimed path makes the caller the unique
holder of that path. -/
theorem claims_mutual_exclusion (st : CoordState) (ops : List CoordOp)
    (hinv : AtMostOneHolder st.claims) :
    AtMostOneHolder (runOps st ops).claims ∧
    (∀ a p t, mlookup st.claims p = none →
      (ClaimFile st t a p true true).1 = .ok () ∧
      holdersOf (ClaimFile st t a p true true).2.claims p = [a]) := by
  constructor
  · induction ops generalizing st with
    | nil => exact hinv
    | cons op rest ih => exact ih (applyOp st op) (atMostOne_applyOp st op hinv)
  · intro a p t hnone
    constructor
    · unfold ClaimFile
      rw [hnone]
      simp
    · have h2 : (ClaimFile st t a p true true).2.claims =
          st.claims ++ [(p, ⟨a, p, t⟩)] := by
        unfold ClaimFile
        rw [hnone]
        simp [Publish, minsert_of_mlookup_none _ hnone]
      rw [h2]
      unfold holdersOf
      rw [List.filter_append, filter_key_of_mlookup_none hnone]
      simp

theorem claims_mutual_exclusion_witness :
    AtMostOneHolder (runOps stHeld [.claimOp "b" "g" 2 true true,
      .releaseOp "a" "f" 3 true true, .releaseAllOp "b" true]).claims ∧
    (∀ a p t, mlookup stHeld.claims p = none →
      (ClaimFile stHeld t a p true true).1 = .ok () ∧
      holdersOf (ClaimFile stHeld t a p true true).2.claims p = [a]) :=
  claims_mutual_exclusion stHeld
    [.claimOp "b" "g" 2 true true, .releaseOp "a" "f" 3 true true,
      .releaseAllOp "b" true]
    (fun p => by
      simpa [holdersOf] using
        List.length_filter_le (fun e => e.1 == p) stHeld.claims)

/-! ## C7: retry-loop success path (Scenario A) -/

/-- C7: with maxAttempts = 3 and the status probe reporting failing tests
with uncommitted changes on attempts 1 and 2 and passing tests with no
uncommitted changes on attempt 3, the controller returns success with
Attempts = 3, the agent's state-table entry ends with status "done", every
claim held by this agent in the namespace has been released while other
agents' claims are untouched, and a success completion record is
persisted. -/
theorem runUntilDone_success (st : CoordState) (repoURL name task0 : String)
    (env : LoopEnv) (loopStart : Nat) (hr : repoURL ≠ "")
    (h1 : env.statusAt 1 = ⟨"fail", true⟩)
    (h2 : env.statusAt 2 = ⟨"fail", true⟩)
    (h3 : env.statusAt 3 = ⟨"pass", false⟩) :
    (RunUntilDone st repoURL name task0 3 env loopStart).err = none ∧
    (RunUntilDone st repoURL name task0 3 env loopStart).result.completed = true ∧
    (RunUntilDone st repoURL name task0 3 env loopStart).result.attempts = 3 ∧
    mlookup (RunUntilDone st repoURL name task0 3 env loopStart).finalState.agents
        name = some ⟨name, "", "done", env.timeAt 3⟩ ∧
    (RunUntilDone st repoURL name task0 3 env loopStart).finalState.claims =
      st.claims.filter (fun e => !(e.2.agent == name)) ∧
    (RunUntilDone st repoURL name task0 3 env loopStart).history =
      some ⟨name, repoURL, loopStart, env.timeAt 3, "success", 3⟩ ∧
    (∀ e ∈ (RunUntilDone st repoURL name task0 3 env loopStart).finalState.claims,
      e.2.agent ≠ name) ∧
    (∀ e ∈ st.claims, e.2.agent ≠ name →
      e ∈ (RunUntilDone st repoURL name task0 3 env loopStart).finalState.claims) := by
  have hfilter : (RunUntilDone st repoURL name task0 3 env loopStart).finalState.claims =
      st.claims.filter (fun e => !(e.2.agent == name)) := by
    unfold RunUntilDone
    simp [runLoop, hr, h1, h2, h3, UpdateAgentState, ReleaseAllForAgent]
  refine ⟨?_, ?_, ?_, ?_, hfilter, ?_, ?_, ?_⟩
  · unfold RunUntilDone
    simp [runLoop, hr, h1, h2, h3]
  · unfold RunUntilDone
    simp [runLoop, hr, h1, h2, h3]
  · unfold RunUntilDone
    simp [runLoop, hr, h1, h2, h3]
  · unfold RunUntilDone
    simp [runLoop, hr, h1, h2, h3, UpdateAgentState, ReleaseAllForAgent,
      mlookup_minsert_self]
  · unfold RunUntilDone
    simp [runLoop, hr, h1, h2, h3]
  · intro e he
    rw [hfilter] at he
    rw [List.mem_filter] at he
    simpa using he.2
  · intro e he hne
    rw [hfilter]
    rw [List.mem_filter]
    exact ⟨he, by simpa using hne⟩

/-- Scenario A environment: probe fails with uncommitted changes on
attempts 1 and 2 and passes clean on attempt 3; clock 100 + attempt. -/
def envScenarioA : LoopEnv :=
  ⟨fun _ => [], fun i => if i = 3 then ⟨"pass", false⟩ else ⟨"fail", true⟩,
   fun _ => ⟨"unknown", false⟩, fun i => 100 + i⟩

theorem runUntilDone_success_witness :
    (RunUntilDone stHeld "r" "a" "fix" 3 envScenarioA 50).err = none ∧
    (RunUntilDone stHeld "r" "a" "fix" 3 envScenarioA 50).result.completed = true ∧
    (RunUntilDone stHeld "r" "a" "fix" 3 envScenarioA 50).result.attempts = 3 ∧
    mlookup (RunUntilDone stHeld "r" "a" "fix" 3 envScenarioA 50).finalState.agents
        "a" = some ⟨"a", "", "done", envScenarioA.timeAt 3⟩ ∧
    (RunUntilDone stHeld "r" "a" "fix" 3 envScenarioA 50).finalState.claims =
      stHeld.claims.filter (fun e => !(e.2.agent == "a")) ∧
    (RunUntilDone stHeld "r" "a" "fix" 3 envScenarioA 50).history =
      some ⟨"a", "r", 50, envScenarioA.timeAt 3, "success", 3⟩ ∧
    (∀ e ∈ (RunUntilDone stHeld "r" "a" "fix" 3 envScenarioA 50).finalState.claims,
      e.2.agent ≠ "a") ∧
    (∀ e ∈ stHeld.claims, e.2.agent ≠ "a" →
      e ∈ (RunUntilDone stHeld "r" "a" "fix" 3 envScenarioA 50).finalState.claims) :=
  runUntilDone_success stHeld "r" "a" "fix" envScenarioA 50 (by decide) rfl rfl rfl

/-! ## C8: retry-loop exhaustion path (Scenario B) -/

/-- C8: with maxAttempts = 2 and a status probe that always reports failing
tests, the controller returns the terminal max-attempts error with
Attempts = 2, the agent's state-table entry ends with status "blocked", and
the claims table is left completely unchanged — no claim is auto-released
on this path — with no completion record persisted. -/
theorem runUntilDone_exhaustion (st : CoordState) (repoURL name task0 : String)
    (env : LoopEnv) (loopStart : Nat) (hr : repoURL ≠ "")
    (h1 : (env.statusAt 1).testStatus = "fail")
    (h2 : (env.statusAt 2).testStatus = "fail") :
    (RunUntilDone st repoURL name task0 2 env loopStart).err =
      some "task not completed after 2 attempts" ∧
    (RunUntilDone st repoURL name task0 2 env loopStart).result.error =
      "max attempts reached" ∧
    (RunUntilDone st repoURL name task0 2 env loopStart).result.completed = false ∧
    (RunUntilDone st repoURL name task0 2 env loopStart).result.attempts = 2 ∧
    mlookup (RunUntilDone st repoURL name task0 2 env loopStart).finalState.agents
        name = some ⟨name, "", "blocked", env.timeAt 3⟩ ∧
    (RunUntilDone st repoURL name task0 2 env loopStart).finalState.claims =
      st.claims ∧
    (RunUntilDone st repoURL name task0 2 env loopStart).history = none := by
  refine ⟨?_, ?_, ?_, ?_, ?_, ?_, ?_⟩
  case refine_1 =>
    unfold RunUntilDone
    simp [runLoop, hr, h1, h2]
    rfl
  all_goals
    unfold RunUntilDone
    simp [runLoop, hr, h1, h2, UpdateAgentState, mlookup_minsert_self]

/-- Scenario B environment: probe always fails; clock 100 + attempt. -/
def envScenarioB : LoopEnv :=
  ⟨fun _ => [], fun _ => ⟨"fail", false⟩, fun _ => ⟨"unknown", false⟩,
   fun i => 100 + i⟩

theorem runUntilDone_exhaustion_witness :
    (RunUntilDone stHeld "r" "a" "fix" 2 envScenarioB 50).err =
      some "task not completed after 2 attempts" ∧
    (RunUntilDone stHeld "r" "a" "fix" 2 envScenarioB 50).result.error =
      "max attempts reached" ∧
    (RunUntilDone stHeld "r" "a" "fix" 2 envScenarioB 50).result.completed = false ∧
    (RunUntilDone stHeld "r" "a" "fix" 2 envScenarioB 50).result.attempts = 2 ∧
    mlookup (RunUntilDone stHeld "r" "a" "fix" 2 envScenarioB 50).finalState.agents
        "a" = some ⟨"a", "", "blocked", envScenarioB.timeAt 3⟩ ∧
    (RunUntilDone stHeld "r" "a" "fix" 2 envScenarioB 50).finalState.claims =
      stHeld.claims ∧
    (RunUntilDone stHeld "r" "a" "fix" 2 envScenarioB 50).history = none :=
  runUntilDone_exhaustion stHeld "r" "a" "fix" envScenarioB 50 (by decide) rfl rfl

/-! ## C10: the rebase instruction accumulates in the task text

At each attempt the controller mutates the `task` variable itself when a
rebase signal qualifies, so the instruction persists into every later
attempt's prompt and is duplicated once per qualifying attempt. -/

/-- Whether the rebase check fires at a given attempt: coordination enabled
and `HasRebaseNeeded` true on the bus contents seen by that attempt. -/
def rebaseFlag (repoURL name : String) (env : LoopEnv) (loopStart i : Nat) : Bool :=
  if repoURL ≠ "" then HasRebaseNeeded (env.busAt i) name loopStart else false

/-- `repeatStr s n` is `s` concatenated `n` times. -/
def repeatStr (s : String) : Nat → String
  | 0 => ""
  | n + 1 => repeatStr s n ++ s

/-- Number of attempts in `attempt, attempt+1, …, attempt+cnt-1` at which
the rebase check fires. -/
def flagCountFrom (repoURL name : String) (env : LoopEnv) (loopStart : Nat) :
    Nat → Nat → Nat
  | _, 0 => 0
  | attempt, cnt + 1 =>
      (if rebaseFlag repoURL name env loopStart attempt then 1 else 0) +
        flagCountFrom repoURL name env loopStart (attempt + 1) cnt

theorem taskStep_eq (repoURL name : String) (env : LoopEnv)
    (loopStart attempt : Nat) (task : String) :
    (if repoURL ≠ "" then
       if HasRebaseNeeded (env.busAt attempt) name loopStart then
         task ++ rebaseInstr
       else task
     else task) =
    (if rebaseFlag repoURL name env loopStart attempt then
      task ++ rebaseInstr
    else task) := by
  unfold rebaseFlag
  by_cases h : repoURL ≠ "" <;> simp [h]

/-- The per-attempt trace produced by the loop from a given attempt on,
carrying only the evolving task text. -/
def traceFrom (repoURL name : String) (env : LoopEnv) (loopStart : Nat) :
    Nat → Nat → String → List AttemptLog
  | 0, _, _ => []
  | fuel + 1, attempt, task =>
      let task := if rebaseFlag repoURL name env loopStart attempt then
          task ++ rebaseInstr
        else task
      let prompt := if attempt > 1 then recapPrompt (env.preStatusAt attempt) task else task
      let status := env.statusAt attempt
      ⟨task, prompt⟩ ::
        (if status.testStatus == "pass" && !status.hasUncommitted then []
         else traceFrom repoURL name env loopStart fuel (attempt + 1) task)

theorem runLoop_trace (repoURL name : String) (env : LoopEnv)
    (loopStart maxA : Nat) :
    ∀ (fuel attempt : Nat) (task : String) (st : CoordState)
      (logs : List AttemptLog) (res : TaskResult),
      (runLoop repoURL name env loopStart maxA fuel attempt task st logs res).trace =
        logs ++ traceFrom repoURL name env loopStart fuel attempt task := by
  intro fuel
  induction fuel with
  | zero =>
      intro attempt task st logs res
      simp [runLoop, traceFrom]
  | succ n ih =>
      intro attempt task st logs res
      simp only [runLoop, traceFrom, taskStep_eq]
      by_cases hcond : ((env.statusAt attempt).testStatus == "pass" &&
          !(env.statusAt attempt).hasUncommitted) = true
      · simp [hcond]
      · simp [hcond, ih]

theorem repeatStr_add (s : String) (a b : Nat) :
    repeatStr s (a + b) = repeatStr s a ++ repeatStr s b := by
  induction b with
  | zero => simp [repeatStr]
  | succ n ih => rw [Nat.add_succ, repeatStr, ih, repeatStr, String.append_assoc]

theorem traceFrom_get? (repoURL name : String) (env : LoopEnv) (loopStart : Nat) :
    ∀ (fuel attempt : Nat) (task : String) (j : Nat) (entry : AttemptLog),
      (traceFrom repoURL name env loopStart fuel attempt task).get? j = some entry →
      entry.task = task ++
        repeatStr rebaseInstr (flagCountFrom repoURL name env loopStart attempt (j + 1)) ∧
      ∃ a b, entry.prompt = a ++ entry.task ++ b := by
  intro fuel
  induction fuel with
  | zero =>
      intro attempt task j entry h
      simp [traceFrom] at h
  | succ n ih =>
      intro attempt task j entry h
      simp only [traceFrom] at h
      cases j with
      | zero =>
          rw [List.get?_cons_zero, Option.some.injEq] at h
          subst h
          constructor
          · by_cases hf : rebaseFlag repoURL name env loopStart attempt = true <;>
              simp [flagCountFrom, repeatStr, hf]
          · by_cases ha : attempt > 1
            · simp only [ha, if_true, recapPrompt]
              exact ⟨_, _, rfl⟩
            · simp only [ha, if_false]
              exact ⟨"", "", by simp⟩
      | succ j =>
          rw [List.get?_cons_succ] at h
          by_cases hcond : ((env.statusAt attempt).testStatus == "pass" &&
              !(env.statusAt attempt).hasUncommitted) = true
          · rw [if_pos hcond] at h
            simp at h
          · rw [if_neg hcond] at h
            obtain ⟨htask, hprompt⟩ := ih (attempt + 1) _ j entry h
            refine ⟨?_, hprompt⟩
            rw [htask]
            by_cases hf : rebaseFlag repoURL name env loopStart attempt = true
            · have h1 : flagCountFrom repoURL name env loopStart attempt (j + 1 + 1) =
                  1 + flagCountFrom repoURL name env loopStart (attempt + 1) (j + 1) := by
                simp [flagCountFrom, hf]
              rw [h1, repeatStr_add, hf, if_pos rfl]
              have h2 : repeatStr rebaseInstr 1 = rebaseInstr := by
                simp [repeatStr]
              rw [h2, String.append_assoc]
            · have h1 : flagCountFrom repoURL name env loopStart attempt (j + 1 + 1) =
                  flagCountFrom repoURL name env loopStart (attempt + 1) (j + 1) := by
                simp [flagCountFrom, hf]
              rw [h1, if_neg hf]

/-- C10: in every run of the controller, the task text recorded at the j-th
attempt equals the original task followed by one copy of the corrective
rebase instruction per attempt (among attempts 1..j) at which the rebase
check fired — the instruction accumulates rather than appearing at most
once — and as soon as at least one earlier attempt fired, the attempt's
prompt contains the instruction, whether or not a qualifying signal exists
at that attempt. -/
theorem rebase_instruction_accumulates (st : CoordState)
    (repoURL name task0 : String) (maxAttempts : Nat) (env : LoopEnv)
    (loopStart : Nat) (j : Nat) (entry : AttemptLog)
    (hentry : (RunUntilDone st repoURL name task0 maxAttempts env
        loopStart).trace.get? j = some entry) :
    entry.task = task0 ++
      repeatStr rebaseInstr (flagCountFrom repoURL name env loopStart 1 (j + 1)) ∧
    (1 ≤ flagCountFrom repoURL name env loopStart 1 (j + 1) →
      List.IsInfix rebaseInstr.data entry.prompt.data) := by
  have htr : (RunUntilDone st repoURL name task0 maxAttempts env loopStart).trace =
      traceFrom repoURL name env loopStart
        (if maxAttempts = 0 then 10 else maxAttempts) 1 task0 := by
    unfold RunUntilDone
    rw [runLoop_trace]
    simp
  rw [htr] at hentry
  obtain ⟨htask, a, b, hprompt⟩ :=
    traceFrom_get? repoURL name env loopStart _ 1 task0 j entry hentry
  refine ⟨htask, fun hk => ?_⟩
  obtain ⟨k, hk'⟩ : ∃ k,
      flagCountFrom repoURL name env loopStart 1 (j + 1) = k + 1 :=
    ⟨flagCountFrom repoURL name env loopStart 1 (j + 1) - 1, by omega⟩
  rw [hk'] at htask
  rw [htask] at hprompt
  rw [hprompt]
  refine ⟨(a ++ (task0 ++ repeatStr rebaseInstr k)).data, b.data, ?_⟩
  simp [repeatStr, String.data_append, List.append_assoc]

/-- Scenario C environment: an untargeted rebase_needed event (timestamp 60)
is visible on the bus at attempts 1 and 2 but not at attempt 3; the probe
always reports failing tests. -/
def envScenarioC : LoopEnv :=
  ⟨fun i => if i ≤ 2 then [⟨.rebaseNeeded, "b", 60, []⟩] else [],
   fun _ => ⟨"fail", false⟩, fun _ => ⟨"unknown", false⟩, fun i => 100 + i⟩

set_option maxRecDepth 8192 in
theorem rebase_instruction_accumulates_witness :
    (⟨"fix" ++ repeatStr rebaseInstr 2,
        recapPrompt ⟨"unknown", false⟩ ("fix" ++ repeatStr rebaseInstr 2)⟩ :
      AttemptLog).task = "fix" ++
        repeatStr rebaseInstr (flagCountFrom "r" "a" envScenarioC 50 1 (2 + 1)) ∧
    (1 ≤ flagCountFrom "r" "a" envScenarioC 50 1 (2 + 1) →
      List.IsInfix rebaseInstr.data
        (⟨"fix" ++ repeatStr rebaseInstr 2,
            recapPrompt ⟨"unknown", false⟩ ("fix" ++ repeatStr rebaseInstr 2)⟩ :
          AttemptLog).prompt.data) :=
  rebase_instruction_accumulates stEmpty "r" "a" "fix" 3 envScenarioC 50 2
    ⟨"fix" ++ repeatStr rebaseInstr 2,
      recapPrompt ⟨"unknown", false⟩ ("fix" ++ repeatStr rebaseInstr 2)⟩
    (by decide)

end Agentctl
